import Mathlib

set_option maxHeartbeats 1000000

/-!
Shallow embedding of the moneyball rating engine.

Sources embedded here:
* src/elo/elo-calculator/calcaulate-elos.py (namespace EloCalc):
  outcome model, per-match Elo update, season continuity resolver,
  standings points aggregation.
* src/elo/league-multipliers/calc-goal-per-elo-diff.py (namespace GoalDiff):
  rating-gap binning and batched calibration aggregation.
* src/elo/league-multipliers/masseys-method.py (namespace Massey):
  calibration-curve lookup and the cross-competition least-squares system.

Ratings are modelled over the real numbers (the Python code computes with
floats; exact-arithmetic claims are settled in exact real arithmetic).
The calibration scripts read already-stored float values from the database,
so their inputs are modelled over the rationals, which keeps the binning
and label-parsing functions executable.
-/

namespace EloCalc

/-- The in-memory rating store: Python dict mapping team id to current Elo. -/
abbrev EloRatings := Nat → Option ℝ

/-- Dictionary write `elo_ratings[t] = v`. -/
def setRating (r : EloRatings) (t : Nat) (v : ℝ) : EloRatings :=
  fun u => if u = t then some v else r u

/-- Constant INITIAL_ELO = 1500 from calcaulate-elos.py line 188. -/
def INITIAL_ELO : ℝ := 1500

/-- Constant K_FACTOR = 20 from calcaulate-elos.py line 189. -/
def K_FACTOR : ℝ := 20

/-- Constant HOME_ADVANTAGE = 100 from calcaulate-elos.py line 190. -/
def HOME_ADVANTAGE : ℝ := 100

/-- Function get_elo of calcaulate-elos.py lines 49-56: expected scores from
pre-match ratings and the home advantage. -/
noncomputable def get_elo (RA RB : ℝ) (home_advantage : ℝ) : ℝ × ℝ :=
  let RA_adj := RA + home_advantage
  let EA := 1 / (1 + (10 : ℝ) ^ ((RB - RA_adj) / 500))
  (EA, 1 - EA)

/-- Function new_elo of calcaulate-elos.py lines 58-64. -/
def new_elo (RA RB EA EB K SA SB : ℝ) : ℝ × ℝ :=
  (RA + K * (SA - EA), RB + K * (SB - EB))

/-- Function determine_scores of calcaulate-elos.py lines 66-75. -/
noncomputable def determine_scores (home_goals away_goals : ℤ) : ℝ × ℝ :=
  if home_goals > away_goals then (1, 0)
  else if home_goals < away_goals then (0, 1)
  else (1/2, 1/2)

/-- A match document as read from the matches collection.  `none` models a
missing field (the Python code reads every field with dict.get, so a missing
key surfaces as None). -/
structure MatchRec where
  id : Option ℤ
  homeID : Option Nat
  awayID : Option Nat
  homeGoalCount : Option ℤ
  awayGoalCount : Option ℤ

/-- The derived fields written back onto a match record
(calcaulate-elos.py lines 320-331). -/
structure MatchWrite where
  home_elo_pre_match : ℝ
  home_elo_pre_match_HA : ℝ
  away_elo_pre_match : ℝ
  away_elo_pre_match_HA : ℝ
  BTTS : ℤ

/-- Result of handling one match in the per-season loop: the rating store
afterwards, the derived-field write (none when skipped) and whether the
match was skipped with a logged warning. -/
structure StepResult where
  ratings : EloRatings
  write : Option MatchWrite
  skipped : Bool

/-- One iteration of the match loop of calcaulate-elos.py lines 260-339:
skip (with a warning) when the id or any essential field is missing,
otherwise compute expected and actual scores from the pre-update ratings,
update both ratings in the store and record the pre-match derived fields. -/
noncomputable def processMatch (r : EloRatings) (m : MatchRec) : StepResult :=
  match m.id with
  | none => ⟨r, none, true⟩
  | some _ =>
    match m.homeID, m.awayID, m.homeGoalCount, m.awayGoalCount with
    | some home_id, some away_id, some home_goals, some away_goals =>
      let btts : ℤ := if home_goals > 0 ∧ away_goals > 0 then 1 else 0
      let RA_before := (r home_id).getD INITIAL_ELO
      let RB_before := (r away_id).getD INITIAL_ELO
      let RA_before_HA := RA_before + HOME_ADVANTAGE
      let RB_before_HA := RB_before
      let E := get_elo RA_before RB_before HOME_ADVANTAGE
      let S := determine_scores home_goals away_goals
      let RN := new_elo RA_before RB_before E.1 E.2 K_FACTOR S.1 S.2
      ⟨setRating (setRating r home_id RN.1) away_id RN.2,
       some ⟨RA_before, RA_before_HA, RB_before, RB_before_HA, btts⟩, false⟩
    | _, _, _, _ => ⟨r, none, true⟩

/-- The full chronological match loop for one season (ratings only). -/
noncomputable def processMatches (r : EloRatings) (ms : List MatchRec) : EloRatings :=
  ms.foldl (fun acc m => (processMatch acc m).ratings) r

/-- Semantics of Python's `s.split('/')` on the character list of s. -/
def splitSlashAux : List Char → List Char → List (List Char)
  | [], cur => [cur.reverse]
  | c :: cs, cur =>
    if c = '/' then cur.reverse :: splitSlashAux cs []
    else splitSlashAux cs (c :: cur)

/-- Python `season_str.split('/')`. -/
def splitSlash (s : String) : List String :=
  (splitSlashAux s.toList []).map List.asString

/-- Semantics of Python `int(s)` restricted to canonical integer literals:
an optional leading minus sign followed by at least one digit; anything else
raises (returns none). -/
def parseNatChars (cs : List Char) : Option Nat :=
  if cs = [] then none
  else if cs.all Char.isDigit then
    some (cs.foldl (fun n c => 10 * n + (c.toNat - 48)) 0)
  else none

/-- Python `int(s)` for a possibly negative literal. -/
def parseIntStr (s : String) : Option ℤ :=
  match s.toList with
  | '-' :: rest => (parseNatChars rest).map (fun n => -(n : ℤ))
  | cs => (parseNatChars cs).map (fun n => (n : ℤ))

/-- Function get_prior_season of calcaulate-elos.py lines 77-91: split the
season label on '/', decrement both year components; any parse failure is
caught and reported as None. -/
def get_prior_season (season_str : String) : Option String :=
  let years := splitSlash season_str
  match years.get? 0, years.get? 1 with
  | some y0, some y1 =>
    match parseIntStr y0, parseIntStr y1 with
    | some start_year, some end_year =>
        some (toString (start_year - 1) ++ "/" ++ toString (end_year - 1))
    | _, _ => none
  | _, _ => none

/-- The per-season standings snapshot built at the end of a season
(calcaulate-elos.py lines 341-374).  The Python elo dicts are modelled as
association lists. -/
structure SeasonStandings where
  teams : List Nat
  top_3_elos : List (Nat × ℝ)
  bottom_3_elos : List (Nat × ℝ)

/-- Arithmetic mean of the values of an elo dict:
`sum(d.values()) / len(d)` (calcaulate-elos.py line 246). -/
noncomputable def dictMeanValues (l : List (Nat × ℝ)) : ℝ :=
  (l.map Prod.snd).sum / (l.length : ℝ)

/-- The stored prior-season standings, keyed by season label
(`prior_season_standings` in calcaulate-elos.py). -/
abbrev StandingsStore := String → Option SeasonStandings

/-- One iteration of the new-team assignment loop of calcaulate-elos.py
lines 231-257 (the season continuity resolver for a single new team). -/
noncomputable def assignOneTeam (standings : StandingsStore) (season : String)
    (r : EloRatings) (team_id : Nat) : EloRatings :=
  match get_prior_season season with
  | some prior_season =>
    match standings prior_season with
    | some st =>
      if team_id ∈ st.teams then
        setRating r team_id ((r team_id).getD INITIAL_ELO)
      else if st.bottom_3_elos ≠ [] then
        setRating r team_id (dictMeanValues st.bottom_3_elos)
      else
        setRating r team_id INITIAL_ELO
    | none => setRating r team_id INITIAL_ELO
  | none => setRating r team_id INITIAL_ELO

/-- The value assigned by one iteration of the new-team loop (the rating
assignOneTeam stores for `team_id`), stated separately for reasoning. -/
noncomputable def assignValue (standings : StandingsStore) (season : String)
    (r : EloRatings) (team_id : Nat) : ℝ :=
  match get_prior_season season with
  | some prior_season =>
    match standings prior_season with
    | some st =>
      if team_id ∈ st.teams then (r team_id).getD INITIAL_ELO
      else if st.bottom_3_elos ≠ [] then dictMeanValues st.bottom_3_elos
      else INITIAL_ELO
    | none => INITIAL_ELO
  | none => INITIAL_ELO

/-- The whole new-team assignment phase of a season (calcaulate-elos.py
lines 226-257): `new_teams = current_season_team_ids - prior_season_teams`,
then each new team receives a rating from the continuity policy. -/
noncomputable def assignNewTeams (standings : StandingsStore) (season : String)
    (priorTeams currentTeams : List Nat) (r : EloRatings) : EloRatings :=
  let new_teams := currentTeams.filter (fun t => decide (t ∉ priorTeams))
  new_teams.foldl (fun acc t => assignOneTeam standings season acc t) r

/-- Collection of the current season's team ids (calcaulate-elos.py lines
217-224).  The Python code guards with `if home_id:`, so a missing id and
the falsy id 0 are both excluded. -/
def addTruthy (acc : List Nat) (x : Option Nat) : List Nat :=
  match x with
  | some t => if t = 0 then acc else t :: acc
  | none => acc

/-- Team ids appearing in a season's match list. -/
def collectTeamIds (ms : List MatchRec) : List Nat :=
  ms.foldl (fun acc m => addTruthy (addTruthy acc m.homeID) m.awayID) []

/-- One season of the main loop of calcaulate-elos.py (rating-store part):
the new-team assignment phase runs to completion, then the match loop
consumes the resulting store. -/
noncomputable def processSeason (standings : StandingsStore) (season : String)
    (priorTeams : List Nat) (r : EloRatings) (ms : List MatchRec) : EloRatings :=
  let current := collectTeamIds ms
  processMatches (assignNewTeams standings season priorTeams current r) ms

/-! The standings aggregator's points computation
(calcaulate-elos.py lines 345-361). -/

/-- The points table: Python dict keyed by whatever `match.get("homeID")`
returned, so the key type is `Option Nat` (a missing id is the key None). -/
abbrev TeamPoints := Option Nat → Option ℤ

/-- `if k not in team_points: team_points[k] = 0`. -/
def ensureKey (tp : TeamPoints) (k : Option Nat) : TeamPoints :=
  fun u => if u = k then some ((tp k).getD 0) else tp u

/-- `team_points[k] += n` (the key is always ensured first). -/
def bumpKey (tp : TeamPoints) (k : Option Nat) (n : ℤ) : TeamPoints :=
  fun u => if u = k then some ((tp k).getD 0 + n) else tp u

/-- One iteration of the points loop (calcaulate-elos.py lines 346-361):
`home_goals = int(match.get("homeGoalCount", 0))` defaults an absent count
to 0, then 3/1/0 points are awarded by goal comparison. -/
def addPoints (tp : TeamPoints) (m : MatchRec) : TeamPoints :=
  let home_id := m.homeID
  let away_id := m.awayID
  let home_goals := m.homeGoalCount.getD 0
  let away_goals := m.awayGoalCount.getD 0
  let tp2 := ensureKey (ensureKey tp home_id) away_id
  if home_goals > away_goals then bumpKey tp2 home_id 3
  else if home_goals < away_goals then bumpKey tp2 away_id 3
  else bumpKey (bumpKey tp2 home_id 1) away_id 1

/-- The whole points computation of a season. -/
def teamPoints (ms : List MatchRec) : TeamPoints :=
  ms.foldl addPoints (fun _ => none)

/-- A match record with absent goal counts replaced by an explicit 0. -/
def fillGoals (m : MatchRec) : MatchRec :=
  { m with homeGoalCount := some (m.homeGoalCount.getD 0),
           awayGoalCount := some (m.awayGoalCount.getD 0) }

/-! Spec-side definitions (from the specification text, for the refinement
claims): expected score and actual score as the spec words them. -/

/-- Modelled from the spec: expected home score
`E_home = 1 / (1 + 10^((rating_away - (rating_home+home_advantage)) / SCALE))`. -/
noncomputable def expectedHomeSpec (rating_home rating_away home_advantage scale : ℝ) : ℝ :=
  1 / (1 + (10 : ℝ) ^ ((rating_away - (rating_home + home_advantage)) / scale))

/-- Modelled from the spec: actual score 1/0 for a clear winner, 0.5/0.5 for
a draw, determined strictly by goal comparison. -/
noncomputable def actualScoresSpec (home_goals away_goals : ℤ) : ℝ × ℝ :=
  if home_goals > away_goals then (1, 0)
  else if away_goals > home_goals then (0, 1)
  else (1/2, 1/2)

end EloCalc

namespace GoalDiff

/-- Semantics of `np.arange(start, stop, step)` for a positive step:
the values `start + step * k` for `k` below the ceiling of
`(stop - start) / step`. -/
def arange (start stop step : ℚ) : List ℚ :=
  let n : Nat := if 0 < step then (⌈(stop - start) / step⌉).toNat else 0
  (List.range n).map (fun (k : Nat) => start + step * (k : ℚ))

/-- The bin edges of calc-goal-per-elo-diff.py lines 67 and 114:
`np.arange(-max_gap - bin_size, max_gap + bin_size + 1, bin_size)`. -/
def bin_edges (bin_size max_gap : ℚ) : List ℚ :=
  arange (-max_gap - bin_size) (max_gap + bin_size + 1) bin_size

/-- Semantics of `pd.cut(x, bins=edges, include_lowest=True)` for one value:
the index of the interval `(edges[i], edges[i+1]]` containing x, the lowest
edge itself landing in interval 0; values outside every interval get NaN,
modelled as `none`. -/
def binIndexOfAux (x : ℚ) : List ℚ → Nat → Option Nat
  | lo :: hi :: rest, i =>
    if (lo < x ∧ x ≤ hi) ∨ (i = 0 ∧ x = lo) then some i
    else binIndexOfAux x (hi :: rest) (i + 1)
  | _, _ => none

/-- Bin assignment of one elo gap (function bin_elo_gaps of
calc-goal-per-elo-diff.py lines 63-70, per value). -/
def binIndexOf (edges : List ℚ) (x : ℚ) : Option Nat :=
  binIndexOfAux x edges 0

/-- Function bin_elo_gaps applied to a whole column. -/
def bin_elo_gaps (elo_gaps : List ℚ) (bin_size max_gap : ℚ) : List (Option Nat) :=
  elo_gaps.map (binIndexOf (bin_edges bin_size max_gap))

/-- A match row as read by calc-goal-per-elo-diff.py lines 136-160:
pre-match home-advantage-adjusted ratings and goal counts; a missing field
is a KeyError, i.e. `none`. -/
structure CalibMatch where
  home_elo_pre_match_HA : Option ℚ
  away_elo_pre_match_HA : Option ℚ
  homeGoalCount : Option ℤ
  awayGoalCount : Option ℤ

/-- Row preparation (calc-goal-per-elo-diff.py lines 136-160): a valid row
yields the elo gap `home_elo - away_elo` and the goal difference; a row with
any missing field is skipped. -/
def calibRow (m : CalibMatch) : Option (ℚ × ℤ) :=
  match m.home_elo_pre_match_HA, m.away_elo_pre_match_HA,
        m.homeGoalCount, m.awayGoalCount with
  | some home_elo, some away_elo, some home_goals, some away_goals =>
      some (home_elo - away_elo, home_goals - away_goals)
  | _, _, _, _ => none

/-- Per-bin goal-difference sum of one batch
(`df.groupby('elo_gap_bin')['goal_diff'].sum()`, line 174). -/
def binSum (bin_size max_gap : ℚ) (ms : List CalibMatch) (i : Nat) : ℚ :=
  (((ms.filterMap calibRow).filter
      (fun row => binIndexOf (bin_edges bin_size max_gap) row.1 == some i)).map
    (fun row => (row.2 : ℚ))).sum

/-- Per-bin observation count of one batch
(`df.groupby('elo_gap_bin')['goal_diff'].count()`, line 175). -/
def binCount (bin_size max_gap : ℚ) (ms : List CalibMatch) (i : Nat) : Nat :=
  ((ms.filterMap calibRow).filter
    (fun row => binIndexOf (bin_edges bin_size max_gap) row.1 == some i)).length

/-- Cross-batch accumulation of the per-bin sums
(`sums[bin_label] += ...`, calc-goal-per-elo-diff.py lines 178-180). -/
def batchSumsTotal (bin_size max_gap : ℚ) (bs : List (List CalibMatch)) (i : Nat) : ℚ :=
  bs.foldl (fun acc b => acc + binSum bin_size max_gap b i) 0

/-- Cross-batch accumulation of the per-bin counts. -/
def batchCountsTotal (bin_size max_gap : ℚ) (bs : List (List CalibMatch)) (i : Nat) : Nat :=
  bs.foldl (fun acc b => acc + binCount bin_size max_gap b i) 0

/-- Final average from cumulative totals (calc-goal-per-elo-diff.py lines
185-196): `total_sum / total_count` when the count is positive, else 0. -/
def avgFromTotals (s : ℚ) (c : Nat) : ℚ :=
  if 0 < c then s / (c : ℚ) else 0

/-- The batched calibration output: per-bin average computed once at the end
from the cumulative totals. -/
def batchedAvg (bin_size max_gap : ℚ) (bs : List (List CalibMatch)) (i : Nat) : ℚ :=
  avgFromTotals (batchSumsTotal bin_size max_gap bs i) (batchCountsTotal bin_size max_gap bs i)

/-- The single-pass result over the whole corpus at once. -/
def singleAvg (bin_size max_gap : ℚ) (ms : List CalibMatch) (i : Nat) : ℚ :=
  avgFromTotals (binSum bin_size max_gap ms i) (binCount bin_size max_gap ms i)

end GoalDiff

namespace Massey

/-- Scanner state for the regex `-?\d+` applied left to right:
either between tokens, just after an unconsumed '-', or inside a number. -/
inductive ScanState where
  | idle : ScanState
  | minus : ScanState
  | num : Bool → Nat → ScanState

/-- Close the current number token, if any. -/
def flushNum (st : ScanState) (acc : List ℤ) : List ℤ :=
  match st with
  | .num neg v => (if neg then -(v : ℤ) else (v : ℤ)) :: acc
  | _ => acc

/-- Left-to-right scan implementing `re.findall(r'-?\d+', s)`: a '-' only
opens a token when immediately followed by a digit, digits are taken
greedily, and matches never overlap. -/
def findIntsAux : List Char → ScanState → List ℤ → List ℤ
  | [], st, acc => (flushNum st acc).reverse
  | c :: cs, st, acc =>
    if c.isDigit then
      match st with
      | .num neg v => findIntsAux cs (.num neg (10 * v + (c.toNat - 48))) acc
      | .minus => findIntsAux cs (.num true (c.toNat - 48)) acc
      | .idle => findIntsAux cs (.num false (c.toNat - 48)) acc
    else
      let acc' := flushNum st acc
      if c = '-' then findIntsAux cs .minus acc'
      else findIntsAux cs .idle acc'

/-- All integers matched by `re.findall(r'-?\d+', s)`
(masseys-method.py line 136). -/
def findInts (s : String) : List ℤ :=
  findIntsAux s.toList .idle []

/-- Function extract_lower_upper_bounds of masseys-method.py lines 129-143:
the regex must find exactly two integers, otherwise the failure is caught
and both bounds are None. -/
def extract_lower_upper_bounds (bin_str : String) : Option (ℤ × ℤ) :=
  match findInts bin_str with
  | [lower, upper] => some (lower, upper)
  | _ => none

/-- The loop of compute_expected_goal_diff (masseys-method.py lines
102-114): iterate the rows in order, skip rows whose label failed to parse,
and return the first row whose closed interval `[lower, upper]` contains
the gap. -/
def lookupBinRow (gap : ℚ) : List (Option (ℤ × ℤ) × ℚ) → Option ℚ
  | [] => none
  | (none, _) :: rest => lookupBinRow gap rest
  | (some (lower, upper), avg) :: rest =>
    if (lower : ℚ) ≤ gap ∧ gap ≤ (upper : ℚ) then some avg
    else lookupBinRow gap rest

/-- Function compute_expected_goal_diff of masseys-method.py lines 96-127.
The table is the calibration CSV: rows of (elo_gap_bin label, avg_goal_diff).
When no row's interval contains the gap, the code compares the gap with the
first row's parsed lower bound and returns the first or last row's average;
if that comparison itself fails (unparsable first label, empty table) the
exception handler returns 0.0. -/
def compute_expected_goal_diff (table : List (String × ℚ)) (gap : ℚ) : ℚ :=
  let rows := table.map (fun r => (extract_lower_upper_bounds r.1, r.2))
  match lookupBinRow gap rows with
  | some avg => avg
  | none =>
    match rows.head?, table.getLast? with
    | some (some (first_lower, _), first_avg), some last_row =>
        if gap < (first_lower : ℚ) then first_avg else last_row.2
    | _, _ => 0

/-- The 22 bin labels produced by calc-goal-per-elo-diff.py for the
reference configuration (bin_size 50, max_gap 500), in CSV row order,
paired with per-bin average goal differences. -/
def refTable (avg : Nat → ℚ) : List (String × ℚ) :=
  [("-550--501", avg 0), ("-500--451", avg 1), ("-450--401", avg 2),
   ("-400--351", avg 3), ("-350--301", avg 4), ("-300--251", avg 5),
   ("-250--201", avg 6), ("-200--151", avg 7), ("-150--101", avg 8),
   ("-100--51", avg 9), ("-50--1", avg 10), ("0-49", avg 11),
   ("50-99", avg 12), ("100-149", avg 13), ("150-199", avg 14),
   ("200-249", avg 15), ("250-299", avg 16), ("300-349", avg 17),
   ("350-399", avg 18), ("400-449", avg 19), ("450-499", avg 20),
   ("500-549", avg 21)]

/-- The system of build_massey_matrix (masseys-method.py lines 145-175).
Competitions are indexed by `Fin (n+1)`; one entry of the data list is
(home league index, away league index, residual).  For each entry the code
adds +1 to both diagonal entries, -1 to both off-diagonal entries, and
accumulates the residual into the right-hand side. -/
def build_massey_M (n : Nat) (data : List (Fin (n + 1) × Fin (n + 1) × ℚ)) :
    Matrix (Fin (n + 1)) (Fin (n + 1)) ℚ :=
  data.foldl
    (fun M e => fun i j =>
      M i j + (if i = e.1 ∧ j = e.1 then 1 else 0)
            + (if i = e.2.1 ∧ j = e.2.1 then 1 else 0)
            - (if i = e.1 ∧ j = e.2.1 then 1 else 0)
            - (if i = e.2.1 ∧ j = e.1 then 1 else 0))
    (fun _ _ => 0)

/-- The right-hand side vector of build_massey_matrix. -/
def build_massey_y (n : Nat) (data : List (Fin (n + 1) × Fin (n + 1) × ℚ)) :
    Fin (n + 1) → ℚ :=
  data.foldl
    (fun y e => fun i =>
      y i + (if i = e.1 then e.2.2 else 0) - (if i = e.2.1 then e.2.2 else 0))
    (fun _ => 0)

/-- The zero-sum constraint (masseys-method.py lines 171-173): the final row
of the matrix is replaced by all ones. -/
def constrainedM (n : Nat) (data : List (Fin (n + 1) × Fin (n + 1) × ℚ)) :
    Matrix (Fin (n + 1)) (Fin (n + 1)) ℚ :=
  fun i j => if i = Fin.last n then 1 else build_massey_M n data i j

/-- The right-hand side with its final entry replaced by zero. -/
def constrainedY (n : Nat) (data : List (Fin (n + 1) × Fin (n + 1) × ℚ)) :
    Fin (n + 1) → ℚ :=
  fun i => if i = Fin.last n then 0 else build_massey_y n data i

/-- Squared residual norm of a candidate solution: `np.linalg.lstsq`
returns a minimizer of this quantity (masseys-method.py line 182). -/
def sqResid {N : Nat} (M : Matrix (Fin N) (Fin N) ℚ) (y x : Fin N → ℚ) : ℚ :=
  ∑ i, (M.mulVec x i - y i) ^ 2

end Massey

namespace EloCalc

/-- Concrete empty rating store for the witness theorems. -/
def r0 : EloRatings := fun _ => none

/-- Concrete rating store holding one team (team 7 at 1520). -/
noncomputable def r1 : EloRatings := fun t => if t = 7 then some 1520 else none

/-- Concrete valid match: id 1, home team 1, away team 2, score 2-1. -/
def m0 : MatchRec := ⟨some 1, some 1, some 2, some 2, some 1⟩

/-- Concrete match missing its home goal count (away scored 2). -/
def m1 : MatchRec := ⟨some 2, some 1, some 2, none, some 2⟩

/-- Concrete match missing both goal counts. -/
def m2 : MatchRec := ⟨some 3, some 1, some 2, none, none⟩

/-- Concrete prior-season standings snapshot: teams 1-3, bottom-3 dict with
teams 4, 5, 6. -/
noncomputable def st0 : SeasonStandings :=
  ⟨[1, 2, 3], [], [(4, 1400), (5, 1300), (6, 1440)]⟩

/-- Concrete standings store holding only season 2019/2020. -/
noncomputable def standings0 : StandingsStore :=
  fun s => if s = "2019/2020" then some st0 else none

end EloCalc

namespace Massey

/-- Concrete solver input: one inter-competition match between leagues 0 and
1 with residual 1 (two leagues in total). -/
def mdata0 : List (Fin 2 × Fin 2 × ℚ) := [(0, 1, 1)]

/-- Concrete candidate offsets for the witness: (1/2, -1/2). -/
def x0 : Fin 2 → ℚ := fun i => if i = 0 then 1/2 else -(1/2)

end Massey

namespace EloCalc

/-- Helper: the rating store written by a processed (non-skipped) match. -/
lemma processMatch_valid (r : EloRatings) (m : MatchRec) (i : ℤ)
    (home_id away_id : Nat) (home_goals away_goals : ℤ)
    (hid : m.id = some i) (hh : m.homeID = some home_id)
    (ha : m.awayID = some away_id) (hhg : m.homeGoalCount = some home_goals)
    (hag : m.awayGoalCount = some away_goals) :
    (processMatch r m).ratings =
      setRating
        (setRating r home_id
          (((r home_id).getD INITIAL_ELO) + K_FACTOR *
            ((determine_scores home_goals away_goals).1 -
             (get_elo ((r home_id).getD INITIAL_ELO) ((r away_id).getD INITIAL_ELO) HOME_ADVANTAGE).1)))
        away_id
        (((r away_id).getD INITIAL_ELO) + K_FACTOR *
          ((determine_scores home_goals away_goals).2 -
           (get_elo ((r home_id).getD INITIAL_ELO) ((r away_id).getD INITIAL_ELO) HOME_ADVANTAGE).2)) := by
  obtain ⟨mid, mh, ma, mhg, mag⟩ := m
  simp only at hid hh ha hhg hag
  subst hid hh ha hhg hag
  rfl

/-- Helper: actual scores of a match sum to 1. -/
lemma determine_scores_sum (home_goals away_goals : ℤ) :
    (determine_scores home_goals away_goals).1 +
      (determine_scores home_goals away_goals).2 = 1 := by
  unfold determine_scores
  split_ifs <;> norm_num

/-- Helper: the away expected score is one minus the home expected score. -/
lemma get_elo_snd (RA RB ha : ℝ) :
    (get_elo RA RB ha).2 = 1 - (get_elo RA RB ha).1 := rfl

/-- Helper: reading the team just written. -/
lemma setRating_self (r : EloRatings) (t : Nat) (v : ℝ) :
    setRating r t v t = some v := by
  simp [setRating]

/-- Helper: a write to one team does not change another team's entry. -/
lemma setRating_ne (r : EloRatings) (t : Nat) (v : ℝ) (u : Nat) (h : u ≠ t) :
    setRating r t v u = r u := by
  simp [setRating, h]

/-- Helper: one new-team assignment is exactly a single store write of the
assigned value. -/
lemma assignOneTeam_eq (standings : StandingsStore) (season : String)
    (r : EloRatings) (team_id : Nat) :
    assignOneTeam standings season r team_id =
      setRating r team_id (assignValue standings season r team_id) := by
  unfold assignOneTeam assignValue
  split
  · split
    · split_ifs <;> rfl
    · rfl
  · rfl

/-- Helper: assigning a rating to one team leaves every other team's entry
unchanged. -/
lemma assignOneTeam_ne (standings : StandingsStore) (season : String)
    (r : EloRatings) (u t : Nat) (h : t ≠ u) :
    assignOneTeam standings season r u t = r t := by
  rw [assignOneTeam_eq]
  exact setRating_ne r u _ t h

/-- Helper: the assignment fold does not touch a team outside the folded
list. -/
lemma foldl_assign_not_mem (standings : StandingsStore) (season : String)
    (l : List Nat) (r : EloRatings) (t : Nat) (h : t ∉ l) :
    (l.foldl (fun acc u => assignOneTeam standings season acc u) r) t = r t := by
  induction l generalizing r with
  | nil => rfl
  | cons a as ih =>
    rw [List.foldl_cons]
    have h' : t ≠ a ∧ t ∉ as := by
      constructor
      · intro hc; exact h (hc ▸ List.mem_cons_self a as)
      · intro hc; exact h (List.mem_cons_of_mem a hc)
    rw [ih _ h'.2]
    exact assignOneTeam_ne standings season r a t h'.1

/-- Helper: if a team is in the folded list and its assignment always
produces the same value, the fold ends with that value. -/
lemma foldl_assign_mem_const (standings : StandingsStore) (season : String)
    (l : List Nat) (r : EloRatings) (t : Nat) (v : ℝ) (hmem : t ∈ l)
    (hval : ∀ acc : EloRatings, assignOneTeam standings season acc t t = some v) :
    (l.foldl (fun acc u => assignOneTeam standings season acc u) r) t = some v := by
  induction l generalizing r with
  | nil => cases hmem
  | cons a as ih =>
    rw [List.foldl_cons]
    by_cases hta : t ∈ as
    · exact ih _ hta
    · have heq : t = a := by
        rcases List.mem_cons.mp hmem with h | h
        · exact h
        · exact absurd h hta
      subst heq
      rw [foldl_assign_not_mem standings season as _ t hta]
      exact hval r

/-- Claim C3: a team present in both consecutive seasons' squads is not a
new team, so the continuity resolver leaves its Rating Store entry unchanged
at the season boundary: its start-of-next-season rating is exactly its
end-of-prior-season rating. -/
theorem C3_season_continuity (standings : StandingsStore) (season : String)
    (priorTeams currentTeams : List Nat) (r : EloRatings) (t : Nat)
    (ht : t ∈ priorTeams) :
    assignNewTeams standings season priorTeams currentTeams r t = r t := by
  unfold assignNewTeams
  apply foldl_assign_not_mem
  intro hmem
  rw [List.mem_filter] at hmem
  exact (of_decide_eq_true hmem.2) ht

/-- Witness for C3 at a concrete input: team 7 played in the prior season,
its stored rating 1520 survives the new-team assignment phase. -/
theorem C3_season_continuity_w :
    7 ∈ [7] ∧ assignNewTeams standings0 "2020/2021" [7] [7, 8] r1 7 = r1 7 :=
  ⟨by decide,
   C3_season_continuity standings0 "2020/2021" [7] [7, 8] r1 7 (by decide)⟩

/-- Claim C4: a team new to the known team set is assigned, before any match
of the season is processed, (a) the mean of the prior season's bottom-3
rating snapshot when prior standings for the stored prior season exist and
the team is absent from them, (b) the initial rating 1500 when the season
label fails to parse, and (c) 1500 when no prior-season standings are
stored; and the season driver factors as assignment followed by the match
loop. -/
theorem C4_new_team_assignment (standings : StandingsStore) (season : String)
    (priorTeams currentTeams : List Nat) (r : EloRatings) (t : Nat)
    (htc : t ∈ currentTeams) (htp : t ∉ priorTeams) :
    (∀ prior_season st, get_prior_season season = some prior_season →
        standings prior_season = some st → t ∉ st.teams →
        st.bottom_3_elos ≠ [] →
        assignNewTeams standings season priorTeams currentTeams r t =
          some (dictMeanValues st.bottom_3_elos)) ∧
    (get_prior_season season = none →
        assignNewTeams standings season priorTeams currentTeams r t =
          some INITIAL_ELO) ∧
    (∀ prior_season, get_prior_season season = some prior_season →
        standings prior_season = none →
        assignNewTeams standings season priorTeams currentTeams r t =
          some INITIAL_ELO) ∧
    (∀ ms, processSeason standings season priorTeams r ms =
        processMatches (assignNewTeams standings season priorTeams
          (collectTeamIds ms) r) ms) := by
  have hmem : t ∈ currentTeams.filter (fun u => decide (u ∉ priorTeams)) :=
    List.mem_filter.mpr ⟨htc, decide_eq_true htp⟩
  refine ⟨?_, ?_, ?_, fun ms => rfl⟩
  · intro prior_season st hps hst hteams hb
    unfold assignNewTeams
    apply foldl_assign_mem_const standings season _ r t _ hmem
    intro acc
    rw [assignOneTeam_eq, setRating_self]
    have hv : assignValue standings season acc t = dictMeanValues st.bottom_3_elos := by
      unfold assignValue
      rw [hps]
      simp [hst, hteams, hb]
    rw [hv]
  · intro hps
    unfold assignNewTeams
    apply foldl_assign_mem_const standings season _ r t _ hmem
    intro acc
    rw [assignOneTeam_eq, setRating_self]
    have hv : assignValue standings season acc t = INITIAL_ELO := by
      unfold assignValue
      rw [hps]
    rw [hv]
  · intro prior_season hps hst
    unfold assignNewTeams
    apply foldl_assign_mem_const standings season _ r t _ hmem
    intro acc
    rw [assignOneTeam_eq, setRating_self]
    have hv : assignValue standings season acc t = INITIAL_ELO := by
      unfold assignValue
      rw [hps]
      simp [hst]
    rw [hv]

/-- Witness for C4 at a concrete input: new team 7 in season 2020/2021,
prior standings 2019/2020 present, 7 absent from them, bottom-3 snapshot
nonempty, so 7 receives the mean of the bottom-3 ratings. -/
theorem C4_new_team_assignment_w :
    7 ∈ [7] ∧ 7 ∉ ([] : List Nat) ∧
    assignNewTeams standings0 "2020/2021" [] [7] r0 7 =
      some (dictMeanValues st0.bottom_3_elos) :=
  ⟨by decide, by decide,
   (C4_new_team_assignment standings0 "2020/2021" [] [7] r0 7 (by decide)
      (by decide)).1 "2019/2020" st0 (by decide) rfl (by decide)
      (List.cons_ne_nil _ _)⟩

/-- Claim C1: a processed match updates both ratings from the pre-update
ratings with K = 20 via `R' = R + K * (S - E)`, where the expected home
score is the spec formula `1 / (1 + 10^((R_away - (R_home + HA)) / 500))`
with home advantage 100, and the away expectation is its complement. -/
theorem C1_match_rating_update (r : EloRatings) (m : MatchRec) (i : ℤ)
    (home_id away_id : Nat) (home_goals away_goals : ℤ)
    (hid : m.id = some i) (hh : m.homeID = some home_id)
    (ha : m.awayID = some away_id) (hhg : m.homeGoalCount = some home_goals)
    (hag : m.awayGoalCount = some away_goals) (hne : home_id ≠ away_id) :
    (processMatch r m).ratings home_id =
      some ((r home_id).getD INITIAL_ELO + 20 *
        ((actualScoresSpec home_goals away_goals).1 -
          expectedHomeSpec ((r home_id).getD INITIAL_ELO)
            ((r away_id).getD INITIAL_ELO) 100 500)) ∧
    (processMatch r m).ratings away_id =
      some ((r away_id).getD INITIAL_ELO + 20 *
        ((actualScoresSpec home_goals away_goals).2 -
          (1 - expectedHomeSpec ((r home_id).getD INITIAL_ELO)
            ((r away_id).getD INITIAL_ELO) 100 500))) := by
  rw [processMatch_valid r m i home_id away_id home_goals away_goals
    hid hh ha hhg hag]
  constructor
  · rw [setRating_ne _ _ _ _ hne, setRating_self]
    rfl
  · rw [setRating_self]
    rfl

/-- Witness for C1 at a concrete input: match m0 (teams 1 and 2, score 2-1)
over the empty store. -/
theorem C1_match_rating_update_w :
    m0.id = some 1 ∧ (1 : Nat) ≠ 2 ∧
    (processMatch r0 m0).ratings 1 =
      some ((r0 1).getD INITIAL_ELO + 20 *
        ((actualScoresSpec 2 1).1 -
          expectedHomeSpec ((r0 1).getD INITIAL_ELO)
            ((r0 2).getD INITIAL_ELO) 100 500)) :=
  ⟨rfl, by decide,
   (C1_match_rating_update r0 m0 1 1 2 2 1 rfl rfl rfl rfl rfl (by decide)).1⟩

/-- Claim C2: for a single processed match the home rating change is exactly
the negative of the away rating change (zero-sum per match, in exact
arithmetic). -/
theorem C2_zero_sum_per_match (r : EloRatings) (m : MatchRec) (i : ℤ)
    (home_id away_id : Nat) (home_goals away_goals : ℤ)
    (hid : m.id = some i) (hh : m.homeID = some home_id)
    (ha : m.awayID = some away_id) (hhg : m.homeGoalCount = some home_goals)
    (hag : m.awayGoalCount = some away_goals) (hne : home_id ≠ away_id) :
    ((processMatch r m).ratings home_id).getD 0 - (r home_id).getD INITIAL_ELO =
      -(((processMatch r m).ratings away_id).getD 0 -
        (r away_id).getD INITIAL_ELO) := by
  rw [processMatch_valid r m i home_id away_id home_goals away_goals
    hid hh ha hhg hag]
  rw [setRating_ne _ _ _ _ hne, setRating_self, setRating_self]
  simp only [Option.getD_some]
  have hs := determine_scores_sum home_goals away_goals
  have he := get_elo_snd ((r home_id).getD INITIAL_ELO)
    ((r away_id).getD INITIAL_ELO) HOME_ADVANTAGE
  rw [he]
  simp only [K_FACTOR]
  ring_nf
  linarith [hs]

/-- Witness for C2 at a concrete input: match m0 over the empty store. -/
theorem C2_zero_sum_per_match_w :
    m0.homeID = some 1 ∧ (1 : Nat) ≠ 2 ∧
    ((processMatch r0 m0).ratings 1).getD 0 - (r0 1).getD INITIAL_ELO =
      -(((processMatch r0 m0).ratings 2).getD 0 - (r0 2).getD INITIAL_ELO) :=
  ⟨rfl, by decide,
   C2_zero_sum_per_match r0 m0 1 1 2 2 1 rfl rfl rfl rfl rfl (by decide)⟩

/-- Claim C5: a match missing any of home id, away id, home goal count or
away goal count is skipped entirely: the rating store is not mutated, no
derived fields are written back, and the skip is flagged (the code logs a
warning for it). -/
theorem C5_missing_fields_skip (r : EloRatings) (m : MatchRec)
    (hmiss : m.homeID = none ∨ m.awayID = none ∨
      m.homeGoalCount = none ∨ m.awayGoalCount = none) :
    (processMatch r m).ratings = r ∧ (processMatch r m).write = none ∧
      (processMatch r m).skipped = true := by
  obtain ⟨mid, mh, ma, mhg, mag⟩ := m
  cases mid <;> cases mh <;> cases ma <;> cases mhg <;> cases mag <;>
    simp_all [processMatch]

/-- Witness for C5 at a concrete input: match m1 lacks its home goal count,
so processing it changes nothing and reports a skip. -/
theorem C5_missing_fields_skip_w :
    m1.homeGoalCount = none ∧
    ((processMatch r0 m1).ratings = r0 ∧ (processMatch r0 m1).write = none ∧
      (processMatch r0 m1).skipped = true) :=
  ⟨rfl, C5_missing_fields_skip r0 m1 (Or.inr (Or.inr (Or.inl rfl)))⟩

/-- Helper: reading the ensured key. -/
lemma ensureKey_self (tp : TeamPoints) (k : Option Nat) :
    ensureKey tp k k = some ((tp k).getD 0) := by
  simp [ensureKey]

/-- Helper: ensuring one key leaves other keys unchanged. -/
lemma ensureKey_ne (tp : TeamPoints) (k u : Option Nat) (h : u ≠ k) :
    ensureKey tp k u = tp u := by
  simp [ensureKey, h]

/-- Helper: reading the bumped key. -/
lemma bumpKey_self (tp : TeamPoints) (k : Option Nat) (n : ℤ) :
    bumpKey tp k n k = some ((tp k).getD 0 + n) := by
  simp [bumpKey]

/-- Helper: bumping one key leaves other keys unchanged. -/
lemma bumpKey_ne (tp : TeamPoints) (k : Option Nat) (n : ℤ) (u : Option Nat)
    (h : u ≠ k) : bumpKey tp k n u = tp u := by
  simp [bumpKey, h]

/-- Counterexample to claim C10 as stated: match m1 has no home goal count
and away count 2.  The updater skips it, but the points computation scores
it 0-2: the away team receives 3 points and the home team 0, not 1 point
each as a 0-0 draw would give. -/
theorem C10_points_default_counterexample :
    (processMatch r0 m1).skipped = true ∧
    teamPoints [m1] (some 2) = some 3 ∧
    teamPoints [m1] (some 1) = some 0 ∧
    ¬(teamPoints [m1] (some 1) = some 1 ∧ teamPoints [m1] (some 2) = some 1) := by
  refine ⟨by decide, by decide, by decide, ?_⟩
  intro hc
  exact absurd hc.1 (by decide)

/-- Claim C10 (amended): a match with an absent goal count is still included
in the points computation, the absent count defaulting to 0 (so the match is
scored as if the absent count were an explicit 0), and both its teams enter
the standings; when BOTH counts are absent the match is scored as a 0-0 draw
awarding 1 point to each team. -/
theorem C10_points_default_amended (tp : TeamPoints) (r : EloRatings)
    (m : MatchRec) (h a : Nat) (hh : m.homeID = some h) (ha : m.awayID = some a)
    (hne : h ≠ a)
    (habs : m.homeGoalCount = none ∨ m.awayGoalCount = none) :
    (processMatch r m).skipped = true ∧
    addPoints tp m = addPoints tp (fillGoals m) ∧
    ((addPoints tp m (some h)).isSome = true ∧
     (addPoints tp m (some a)).isSome = true) ∧
    (m.homeGoalCount = none → m.awayGoalCount = none →
      addPoints tp m (some h) = some ((tp (some h)).getD 0 + 1) ∧
      addPoints tp m (some a) = some ((tp (some a)).getD 0 + 1)) := by
  have hsne : (some h : Option Nat) ≠ some a := by
    intro hc
    exact hne (Option.some.inj hc)
  have hsne' : (some a : Option Nat) ≠ some h := by
    intro hc
    exact hne (Option.some.inj hc).symm
  refine ⟨?_, rfl, ?_, ?_⟩
  · obtain ⟨mid, mh, ma, mhg, mag⟩ := m
    simp only at hh ha
    subst hh ha
    cases mid <;> rcases habs with hg | hg <;> simp only at hg <;> subst hg <;>
      first
        | rfl
        | (cases mhg <;> rfl)
  · constructor
    · unfold addPoints
      rw [hh, ha]
      split_ifs <;>
        simp [bumpKey_self, bumpKey_ne, ensureKey_self, ensureKey_ne, hsne, hsne']
    · unfold addPoints
      rw [hh, ha]
      split_ifs <;>
        simp [bumpKey_self, bumpKey_ne, ensureKey_self, ensureKey_ne, hsne, hsne']
  · intro hhg hag
    unfold addPoints
    rw [hh, ha, hhg, hag]
    constructor
    · rw [if_neg (by decide), if_neg (by decide), bumpKey_ne _ _ _ _ hsne,
        bumpKey_self, ensureKey_ne _ _ _ hsne, ensureKey_self]
      rfl
    · rw [if_neg (by decide), if_neg (by decide), bumpKey_self,
        bumpKey_ne _ _ _ _ hsne', ensureKey_self, ensureKey_ne _ _ _ hsne']
      rfl

/-- Witness for the amended C10 at a concrete input: match m2 (both goal
counts absent) is skipped by the updater yet scored as a 0-0 draw in the
standings, each team receiving one point. -/
theorem C10_points_default_amended_w :
    m2.homeGoalCount = none ∧
    ((processMatch r0 m2).skipped = true ∧
     addPoints (fun _ => none) m2 = addPoints (fun _ => none) (fillGoals m2) ∧
     ((addPoints (fun _ => none) m2 (some 1)).isSome = true ∧
      (addPoints (fun _ => none) m2 (some 2)).isSome = true) ∧
     (m2.homeGoalCount = none → m2.awayGoalCount = none →
       addPoints (fun _ => none) m2 (some 1) =
         some (((fun _ => none : TeamPoints) (some 1)).getD 0 + 1) ∧
       addPoints (fun _ => none) m2 (some 2) =
         some (((fun _ => none : TeamPoints) (some 2)).getD 0 + 1))) :=
  ⟨rfl, C10_points_default_amended (fun _ => none) r0 m2 1 2 rfl rfl
    (by decide) (Or.inl rfl)⟩

end EloCalc

namespace GoalDiff

/-- Helper: in a strictly increasing nonempty list the head is at most the
last element. -/
lemma chain_head_le_getLast (l : List ℚ) (b hi : ℚ)
    (hch : List.Chain' (fun p q => p < q) (b :: l))
    (hlast : (b :: l).getLast? = some hi) : b ≤ hi := by
  induction l generalizing b with
  | nil =>
    simp only [List.getLast?_singleton, Option.some.injEq] at hlast
    exact le_of_eq hlast
  | cons c tail ih =>
    rw [List.chain'_cons] at hch
    rw [List.getLast?_cons_cons] at hlast
    exact le_of_lt (lt_of_lt_of_le hch.1 (ih c hch.2 hlast))

/-- Helper: away from the first interval (index at least 1), the scan
succeeds exactly when the value lies in the half-open hull of the list. -/
lemma binIndexOfAux_isSome_pos (x : ℚ) (l : List ℚ) :
    ∀ i : Nat, 0 < i → List.Chain' (fun p q => p < q) l →
      ((binIndexOfAux x l i).isSome = true ↔
        ∃ lo hi, l.head? = some lo ∧ l.getLast? = some hi ∧ lo < x ∧ x ≤ hi) := by
  induction l with
  | nil =>
    intro i _ _
    simp [binIndexOfAux]
  | cons a tail ih =>
    intro i hi hch
    cases tail with
    | nil =>
      simp only [binIndexOfAux, List.head?_cons, List.getLast?_singleton]
      constructor
      · intro h
        cases h
      · rintro ⟨lo, hi', hlo, hhi, h1, h2⟩
        rw [Option.some.injEq] at hlo hhi
        subst hlo hhi
        exact absurd (lt_of_lt_of_le h1 h2) (lt_irrefl a)
    | cons b rest =>
      rw [List.chain'_cons] at hch
      simp only [binIndexOfAux]
      by_cases hcond : (a < x ∧ x ≤ b) ∨ (i = 0 ∧ x = a)
      · rw [if_pos hcond]
        simp only [Option.isSome_some, true_iff]
        rcases hcond with hab | hz
        · obtain ⟨hi', hhi⟩ : ∃ hi', (b :: rest).getLast? = some hi' := by
            cases h : (b :: rest).getLast? with
            | none => simp at h
            | some v => exact ⟨v, rfl⟩
          refine ⟨a, hi', rfl, ?_, hab.1, ?_⟩
          · rw [List.getLast?_cons_cons]
            exact hhi
          · exact le_trans hab.2 (chain_head_le_getLast rest b hi' hch.2 hhi)
        · exact absurd hz.1 (Nat.pos_iff_ne_zero.mp hi)
      · rw [if_neg hcond]
        rw [ih (i + 1) (Nat.succ_pos i) hch.2]
        push_neg at hcond
        constructor
        · rintro ⟨lo, hi', hlo, hhi, h1, h2⟩
          rw [List.head?_cons, Option.some.injEq] at hlo
          subst hlo
          refine ⟨a, hi', rfl, ?_, lt_trans hch.1 h1, h2⟩
          rw [List.getLast?_cons_cons]
          exact hhi
        · rintro ⟨lo, hi', hlo, hhi, h1, h2⟩
          rw [List.head?_cons, Option.some.injEq] at hlo
          subst hlo
          rw [List.getLast?_cons_cons] at hhi
          exact ⟨b, hi', rfl, hhi, hcond.1 h1, h2⟩

/-- Helper: the pd.cut scan over a strictly increasing edge list with at
least two edges succeeds exactly on the lowest edge itself or on values in
the half-open hull. -/
lemma binIndexOf_isSome_iff (x : ℚ) (a b : ℚ) (rest : List ℚ) (hi : ℚ)
    (hch : List.Chain' (fun p q => p < q) (a :: b :: rest))
    (hlast : (b :: rest).getLast? = some hi) :
    ((binIndexOf (a :: b :: rest) x).isSome = true ↔
      (x = a ∨ (a < x ∧ x ≤ hi))) := by
  rw [List.chain'_cons] at hch
  unfold binIndexOf
  simp only [binIndexOfAux, true_and, zero_add]
  by_cases hcond : (a < x ∧ x ≤ b) ∨ x = a
  · rw [if_pos hcond]
    simp only [Option.isSome_some, true_iff]
    rcases hcond with hab | hz
    · exact Or.inr ⟨hab.1,
        le_trans hab.2 (chain_head_le_getLast rest b hi hch.2 hlast)⟩
    · exact Or.inl hz
  · rw [if_neg hcond]
    rw [binIndexOfAux_isSome_pos x (b :: rest) 1 Nat.one_pos hch.2]
    push_neg at hcond
    have hxa : x ≠ a := hcond.2
    constructor
    · rintro ⟨lo, hi', hlo, hhi, h1, h2⟩
      rw [List.head?_cons, Option.some.injEq] at hlo
      subst hlo
      rw [hlast] at hhi
      rw [Option.some.injEq] at hhi
      subst hhi
      exact Or.inr ⟨lt_trans hch.1 h1, h2⟩
    · rintro (h | h)
      · exact absurd h hxa
      · exact ⟨b, hi, rfl, hlast, hcond.1 h.1, h.2⟩

/-- Helper: the reference bin edges evaluate to the 23 concrete edges
-550, -500, ..., 550. -/
lemma bin_edges_ref :
    bin_edges 50 500 =
      [-550, -500, -450, -400, -350, -300, -250, -200, -150, -100, -50, 0,
       50, 100, 150, 200, 250, 300, 350, 400, 450, 500, 550] := by
  have hc : (⌈(((500 : ℚ) + 50 + 1) - (-(500 : ℚ) - 50)) / 50⌉ : ℤ) = 23 := by
    rw [Int.ceil_eq_iff]
    norm_num
  simp only [bin_edges, arange]
  rw [if_pos (show (0 : ℚ) < 50 by norm_num), hc]
  rw [show ((23 : ℤ)).toNat = 23 from rfl]
  rw [show List.range 23 =
    [0, 1, 2, 3, 4, 5, 6, 7, 8, 9, 10, 11, 12, 13, 14, 15, 16, 17, 18, 19,
     20, 21, 22] from rfl]
  simp only [List.map_cons, List.map_nil]
  norm_num

/-- Counterexample to claim C6 as stated: the gap 600 exceeds the outermost
edge 550 and the gap -551 undershoots the lowest edge -550; pd.cut assigns
them no bin at all (NaN), so they are not counted in any bin: the end bins
do not saturate. -/
theorem C6_partition_counterexample :
    binIndexOf (bin_edges 50 500) 600 = none ∧
    binIndexOf (bin_edges 50 500) (-551) = none := by
  rw [bin_edges_ref]
  constructor <;> norm_num [binIndexOf, binIndexOfAux]

/-- Claim C6 (amended): for the reference configuration the bin set
partitions the closed interval from -550 to 550 (max_gap plus one extra bin
width on each side): a gap receives a bin exactly when it lies in that
interval; gaps outside it receive no bin and are dropped from the
calibration counts. -/
theorem C6_partition_amended (x : ℚ) :
    (-550 ≤ x ∧ x ≤ 550) ↔
      (binIndexOf (bin_edges 50 500) x).isSome = true := by
  rw [bin_edges_ref]
  rw [binIndexOf_isSome_iff x (-550) (-500)
    [-450, -400, -350, -300, -250, -200, -150, -100, -50, 0,
     50, 100, 150, 200, 250, 300, 350, 400, 450, 500, 550] 550
    (by norm_num [List.chain'_cons]) rfl]
  constructor
  · rintro ⟨h1, h2⟩
    rcases eq_or_lt_of_le h1 with h | h
    · exact Or.inl h.symm
    · exact Or.inr ⟨h, h2⟩
  · rintro (h | h)
    · subst h
      norm_num
    · exact ⟨le_of_lt h.1, h.2⟩

end GoalDiff

namespace GoalDiff

/-- Helper: per-bin sums are additive over concatenation of the corpus. -/
lemma binSum_append (bin_size max_gap : ℚ) (b rest : List CalibMatch) (i : Nat) :
    binSum bin_size max_gap (b ++ rest) i =
      binSum bin_size max_gap b i + binSum bin_size max_gap rest i := by
  simp [binSum, List.filterMap_append, List.filter_append, List.map_append,
    List.sum_append]

/-- Helper: per-bin counts are additive over concatenation of the corpus. -/
lemma binCount_append (bin_size max_gap : ℚ) (b rest : List CalibMatch) (i : Nat) :
    binCount bin_size max_gap (b ++ rest) i =
      binCount bin_size max_gap b i + binCount bin_size max_gap rest i := by
  simp [binCount, List.filterMap_append, List.filter_append, List.length_append]

/-- Helper: an additive fold from an arbitrary start value shifts by that
value. -/
lemma foldl_add_shift {α : Type} {M : Type} [AddCommMonoid M] (g : α → M) :
    ∀ (bs : List α) (c : M),
      bs.foldl (fun acc b => acc + g b) c =
        c + bs.foldl (fun acc b => acc + g b) 0 := by
  intro bs
  induction bs with
  | nil => intro c; simp
  | cons b tail ih =>
    intro c
    rw [List.foldl_cons, List.foldl_cons, ih (c + g b), ih (0 + g b),
      zero_add, add_assoc]

/-- Helper: the accumulated per-bin sums over batches equal the single-pass
sum over the concatenated corpus. -/
lemma batchSumsTotal_join (bin_size max_gap : ℚ)
    (bs : List (List CalibMatch)) (i : Nat) :
    batchSumsTotal bin_size max_gap bs i =
      binSum bin_size max_gap bs.flatten i := by
  induction bs with
  | nil => rfl
  | cons b tail ih =>
    rw [show (b :: tail).flatten = b ++ tail.flatten from rfl, binSum_append]
    unfold batchSumsTotal
    rw [List.foldl_cons, foldl_add_shift, zero_add]
    unfold batchSumsTotal at ih
    rw [ih]

/-- Helper: the accumulated per-bin counts over batches equal the
single-pass count over the concatenated corpus. -/
lemma batchCountsTotal_join (bin_size max_gap : ℚ)
    (bs : List (List CalibMatch)) (i : Nat) :
    batchCountsTotal bin_size max_gap bs i =
      binCount bin_size max_gap bs.flatten i := by
  induction bs with
  | nil => rfl
  | cons b tail ih =>
    rw [show (b :: tail).flatten = b ++ tail.flatten from rfl, binCount_append]
    unfold batchCountsTotal
    rw [List.foldl_cons, foldl_add_shift, zero_add]
    unfold batchCountsTotal at ih
    rw [ih]

/-- Claim C9: batching does not change the calibration output.  The batched
result accumulates per-bin sums and counts across batches and divides once
at the end, and it equals the single-pass result over the concatenated
corpus; a bin with zero observations reports average zero. -/
theorem C9_batched_equals_single (bin_size max_gap : ℚ)
    (bs : List (List CalibMatch)) (i : Nat) :
    batchedAvg bin_size max_gap bs i = singleAvg bin_size max_gap bs.flatten i ∧
    batchSumsTotal bin_size max_gap bs i = binSum bin_size max_gap bs.flatten i ∧
    batchCountsTotal bin_size max_gap bs i =
      binCount bin_size max_gap bs.flatten i ∧
    (binCount bin_size max_gap bs.flatten i = 0 →
      singleAvg bin_size max_gap bs.flatten i = 0) := by
  refine ⟨?_, batchSumsTotal_join bin_size max_gap bs i,
    batchCountsTotal_join bin_size max_gap bs i, ?_⟩
  · unfold batchedAvg singleAvg
    rw [batchSumsTotal_join, batchCountsTotal_join]
  · intro h
    unfold singleAvg avgFromTotals
    rw [h]
    simp

/-- Witness for C9 at a concrete input: two empty batches, bin 0.  The
implication conjunct is discharged at a bin with zero observations. -/
theorem C9_batched_equals_single_w :
    batchedAvg 50 500 [[], []] 0 =
      singleAvg 50 500 ([[], []] : List (List CalibMatch)).flatten 0 ∧
    binCount 50 500 ([[], []] : List (List CalibMatch)).flatten 0 = 0 ∧
    singleAvg 50 500 ([[], []] : List (List CalibMatch)).flatten 0 = 0 :=
  ⟨(C9_batched_equals_single 50 500 [[], []] 0).1, rfl,
   (C9_batched_equals_single 50 500 [[], []] 0).2.2.2 rfl⟩

end GoalDiff

namespace Massey

/-- Claim C7: any least-squares solution of the constrained Massey system
(final row all ones, final right-hand side 0) has offsets summing exactly to
zero, provided the constrained system is consistent (the non-degenerate
case: some exact solution exists).  `lstsq` returns a residual-norm
minimizer, so its output satisfies the zero-sum constraint. -/
theorem C7_solver_zero_sum (n : Nat)
    (data : List (Fin (n + 1) × Fin (n + 1) × ℚ)) (x : Fin (n + 1) → ℚ)
    (hcons : ∃ z, (constrainedM n data).mulVec z = constrainedY n data)
    (hmin : ∀ w, sqResid (constrainedM n data) (constrainedY n data) x ≤
      sqResid (constrainedM n data) (constrainedY n data) w) :
    ∑ i, x i = 0 := by
  obtain ⟨z, hz⟩ := hcons
  have hz0 : sqResid (constrainedM n data) (constrainedY n data) z = 0 := by
    unfold sqResid
    rw [hz]
    simp
  have hx0 : sqResid (constrainedM n data) (constrainedY n data) x = 0 := by
    have h1 := hmin z
    rw [hz0] at h1
    have h2 : 0 ≤ sqResid (constrainedM n data) (constrainedY n data) x := by
      unfold sqResid
      exact Finset.sum_nonneg fun j _ => sq_nonneg _
    linarith
  unfold sqResid at hx0
  have hall := (Finset.sum_eq_zero_iff_of_nonneg
    (fun j _ => sq_nonneg
      ((constrainedM n data).mulVec x j - constrainedY n data j))).mp hx0
  have hlast0 := hall (Fin.last n) (Finset.mem_univ _)
  have hlast : (constrainedM n data).mulVec x (Fin.last n) =
      constrainedY n data (Fin.last n) :=
    sub_eq_zero.mp (sq_eq_zero_iff.mp hlast0)
  have hrow : (constrainedM n data).mulVec x (Fin.last n) = ∑ j, x j := by
    simp [Matrix.mulVec, Matrix.dotProduct, constrainedM]
  have hy : constrainedY n data (Fin.last n) = 0 := by
    simp [constrainedY]
  rw [hrow, hy] at hlast
  exact hlast

/-- Helper: the candidate offsets (1/2, -1/2) solve the concrete constrained
system of mdata0 exactly. -/
lemma mdata0_solution :
    (constrainedM 1 mdata0).mulVec x0 = constrainedY 1 mdata0 := by
  funext i
  fin_cases i <;>
    (simp [Matrix.mulVec, Matrix.dotProduct, Fin.sum_univ_two, constrainedM,
       constrainedY, build_massey_M, build_massey_y, mdata0, x0, Fin.last,
       Fin.ext_iff];
     try norm_num)

/-- Witness for C7 at a concrete input: one match between two leagues with
residual 1; the exact (hence least-squares) solution (1/2, -1/2) sums to
zero. -/
theorem C7_solver_zero_sum_w :
    (∃ z, (constrainedM 1 mdata0).mulVec z = constrainedY 1 mdata0) ∧
    (∀ w, sqResid (constrainedM 1 mdata0) (constrainedY 1 mdata0) x0 ≤
      sqResid (constrainedM 1 mdata0) (constrainedY 1 mdata0) w) ∧
    (∑ i, x0 i = 0) := by
  have hcons : ∃ z, (constrainedM 1 mdata0).mulVec z = constrainedY 1 mdata0 :=
    ⟨x0, mdata0_solution⟩
  have h0 : sqResid (constrainedM 1 mdata0) (constrainedY 1 mdata0) x0 = 0 := by
    unfold sqResid
    rw [mdata0_solution]
    simp
  have hmin : ∀ w, sqResid (constrainedM 1 mdata0) (constrainedY 1 mdata0) x0 ≤
      sqResid (constrainedM 1 mdata0) (constrainedY 1 mdata0) w := by
    intro w
    rw [h0]
    unfold sqResid
    exact Finset.sum_nonneg fun j _ => sq_nonneg _
  exact ⟨hcons, hmin, C7_solver_zero_sum 1 mdata0 x0 hcons hmin⟩

/-- Helper: the parsed bounds of the reference table.  The regex `-?\d+`
consumes the hyphen separating the bounds of every non-negative bin label as
a minus sign, so "0-49" parses to (0, -49) and likewise for all bins with a
non-negative lower bound. -/
lemma refTable_parsed (avg : Nat → ℚ) :
    (refTable avg).map (fun r => (extract_lower_upper_bounds r.1, r.2)) =
      [(some (-550, -501), avg 0), (some (-500, -451), avg 1),
       (some (-450, -401), avg 2), (some (-400, -351), avg 3),
       (some (-350, -301), avg 4), (some (-300, -251), avg 5),
       (some (-250, -201), avg 6), (some (-200, -151), avg 7),
       (some (-150, -101), avg 8), (some (-100, -51), avg 9),
       (some (-50, -1), avg 10), (some (0, -49), avg 11),
       (some (50, -99), avg 12), (some (100, -149), avg 13),
       (some (150, -199), avg 14), (some (200, -249), avg 15),
       (some (250, -299), avg 16), (some (300, -349), avg 17),
       (some (350, -399), avg 18), (some (400, -449), avg 19),
       (some (450, -499), avg 20), (some (500, -549), avg 21)] := rfl

/-- Claim C8 is right about the intent but the code contradicts it: the
label parser returns an inverted empty interval (0, -49) for the bin "0-49"
(and for every non-negative bin), so the containment loop can never match a
non-negative gap.  Evaluated at the failing input gap = 0 with bin averages
avg i = i: pd.cut places gap 0 in bin 10 and the label-interval reading
would give bin 11, but the lookup returns the LAST row's average 21. -/
theorem C8_calibration_lookup_bug :
    extract_lower_upper_bounds "0-49" = some (0, -49) ∧
    GoalDiff.binIndexOf (GoalDiff.bin_edges 50 500) 0 = some 10 ∧
    compute_expected_goal_diff (refTable (fun i => (i : ℚ))) 0 = 21 ∧
    ((21 : ℚ) ≠ 10 ∧ (21 : ℚ) ≠ 11) := by
  refine ⟨rfl, ?_, ?_, by norm_num⟩
  · rw [GoalDiff.bin_edges_ref]
    norm_num [GoalDiff.binIndexOf, GoalDiff.binIndexOfAux]
  · simp only [compute_expected_goal_diff]
    rw [refTable_parsed]
    norm_num [lookupBinRow, refTable, List.getLast?]

end Massey
